import Mathlib

/-!
Shallow embedding of the alt-hanzi application core (src/unnamed/part_000,
the `Hanzi` class) for checking the natural-language specification.

The state that the claims are about is split in two:
* `CState` — the Pinyin composer fields (`pinyinInfoText`, tone selection,
  info-panel text, the audio-playback invocations), mutated only by `putc`;
* `HState` — everything else: scene pointer, the shared grid widget's page
  cursor, the two working lists with their remembered page slots, the
  spawned-entity maps and the level storage.

JavaScript numbers are modelled as `JSNum := Option Rat` with `none` playing
NaN (arithmetic propagates it, strict comparison against NaN is always
unequal). JS `Map` objects are modelled as insertion-ordered association
lists with unique keys (`mapGet`/`mapSet`/`mapDelete`); `Map.forEach`
iterates in list order, as in JS.

Code of the repository that is not under src/ (GUI/gridMenu.ts,
GUI/NumberInput.ts, database.ts, utils.ts) is modelled from the spec; each
such definition carries a doc comment starting `Modelled from the spec:`.
External collaborators (the MRE SDK, Node's fs/path, the remote model fetch)
are modelled by their documented behaviour; remote fetches are assumed to
succeed (a failed fetch abandons the spawn, which no claim exercises).
-/

namespace AltHanzi

/-- JS number: `some q` is an ordinary (rational-valued) number, `none` is NaN. -/
abbrev JSNum := Option Rat

/-- Binary JS arithmetic: NaN propagates. -/
def jsBin (f : Rat → Rat → Rat) : JSNum → JSNum → JSNum
  | some a, some b => some (f a b)
  | _, _ => none

def jsAdd : JSNum → JSNum → JSNum := jsBin (· + ·)

def jsSub : JSNum → JSNum → JSNum := jsBin (· - ·)

def jsMul : JSNum → JSNum → JSNum := jsBin (· * ·)

def jsDiv : JSNum → JSNum → JSNum := jsBin (· / ·)

/-- The JS value `NaN`. -/
def jsNaN : JSNum := none

/-- JS strict inequality `a !== b`: NaN compares unequal to everything,
itself included, so any comparison involving NaN yields `true`. -/
def jsStrictNeq (a b : JSNum) : Bool :=
  match a, b with
  | some x, some y => decide (x ≠ y)
  | _, _ => true

/-- Digit run to a natural number. -/
def digitsVal (ds : List Char) : Nat :=
  ds.foldl (fun a c => a * 10 + (c.toNat - 48)) 0

/-- Helper for `jsParseInt`: parse a leading digit run with the given sign. -/
def jsParseIntCore (sign : Int) (cs : List Char) : JSNum :=
  let ds := cs.takeWhile Char.isDigit
  if ds.isEmpty then none
  else some ((sign * Int.ofNat (digitsVal ds) : Int) : Rat)

/-- Model of JS `parseInt(text)` at radix 10: skip leading spaces, optional
sign, then a leading digit run; NaN when no digit is found. -/
def jsParseInt (s : String) : JSNum :=
  match s.data.dropWhile (fun c => c = ' ') with
  | '-' :: rest => jsParseIntCore (-1) rest
  | '+' :: rest => jsParseIntCore 1 rest
  | cs => jsParseIntCore 1 cs

/-- Whether `pat` occurs inside `hay` (contiguously): model of JS
`String.prototype.includes`, case-sensitive and unanchored. -/
def listHasInfix (pat : List Char) : List Char → Bool
  | [] => pat.isPrefixOf []
  | c :: t => pat.isPrefixOf (c :: t) || listHasInfix pat t

/-- JS `hay.includes(pat)`. -/
def jsIncludes (hay pat : String) : Bool := listHasInfix pat.data hay.data

/-- Model of Node `path.basename` (posix): drop trailing separators, then
keep the final path segment. -/
def posixBasename (s : String) : String :=
  let cs := s.data.reverse.dropWhile (fun c => c = '/')
  String.mk (cs.takeWhile (fun c => c ≠ '/')).reverse

/-- The string has no path separator. -/
def noSlash (s : String) : Bool := s.data.all (fun c => c ≠ '/')

/-- Replace the first occurrence of a character, as JS
`str.replace('ü','v')` does with a string pattern (first match only). -/
def replaceFirstChar : List Char → Char → Char → List Char
  | [], _, _ => []
  | c :: cs, a, b => if c = a then b :: cs else c :: replaceFirstChar cs a b

/-! ## Association-list model of JS `Map` (insertion-ordered, unique keys) -/

/-- Value stored under a key, if any. -/
def mapGet {κ β : Type} [DecidableEq κ] : List (κ × β) → κ → Option β
  | [], _ => none
  | p :: m, k => if p.1 = k then some p.2 else mapGet m k

/-- JS `Map.has`. -/
def mapHas {κ β : Type} [DecidableEq κ] (m : List (κ × β)) (k : κ) : Bool :=
  (mapGet m k).isSome

/-- JS `Map.set`: update in place when the key exists, append otherwise. -/
def mapSet {κ β : Type} [DecidableEq κ] : List (κ × β) → κ → β → List (κ × β)
  | [], k, v => [(k, v)]
  | p :: m, k, v => if p.1 = k then (k, v) :: m else p :: mapSet m k v

/-- JS `Map.delete`: remove the entry under the key. -/
def mapDelete {κ β : Type} [DecidableEq κ] : List (κ × β) → κ → List (κ × β)
  | [], _ => []
  | p :: m, k => if p.1 = k then mapDelete m k else p :: mapDelete m k

/-- Add an element to a set-like list if not already present. -/
def insertNew (l : List Nat) (n : Nat) : List Nat :=
  if l.contains n then l else n :: l

/-! ## Constants of the app -/

def HANZI_MODEL_SCALE : Rat := (1 / 10000 : Rat) * 8

def SCALE_STEP : Rat := ((25 / 1000 : Rat)) / 1000

def PINYIN_INFO_PLACE_HOLDER : String := "Awaiting Input"

def PINYIN_INFO_ERROR_MESSAGE : String := "No Such Syllable"

/-! ## Pinyin composer (`putc`, lines 1030–1063 of src/unnamed/part_000) -/

/-- Composer state: the buffer `pinyinInfoText`, the Pinyin-menu highlight,
the tone strip's selection (`pinyinTone.highlighted` / `.coord.y`), the
info-panel text, and the log of `playSound` invocations (the audio sprite
segment actually played is looked up inside `playSound` from external
sprite data; the log records the normalized key passed to it). -/
structure CState where
  pinyinInfoText : String
  menuHighlightOn : Bool
  toneHighlighted : Bool
  toneY : Nat
  display : String
  played : List String
  deriving DecidableEq, Repr

/-- Composer state at startup: empty buffer, no highlights, placeholder text. -/
def initCState : CState :=
  { pinyinInfoText := ""
    menuHighlightOn := false
    toneHighlighted := false
    toneY := 0
    display := PINYIN_INFO_PLACE_HOLDER
    played := [] }

/-- Modelled from the spec: database.ts is not under src/. The syllable
database's `find(prefix)` is prefix validity — whether some valid syllable
has the argument as a prefix. -/
def pdFind (syllables : List String) (p : String) : Bool :=
  syllables.any (fun s => p.isPrefixOf s)

/-- Tone digit appended to the playback key when a tone is selected
(`(this.pinyinTone.coord.y+1).toString()`), empty otherwise. -/
def toneSuffix (s : CState) : String :=
  if s.toneHighlighted then toString (s.toneY + 1) else ""

/-- Normalization on Enter: the diacritic vowel maps to its plain-letter
romanization (`this.pinyinInfoText.replace('ü','v')`, first match). -/
def normalizeBuffer (b : String) : String :=
  String.mk (replaceFirstChar b.data 'ü' 'v')

/-- Info-panel text computed at the end of `putc`: the live buffer when
non-empty, else the error message when the operation failed, else the
placeholder prompt. -/
def putcDisplay (buffer : String) (error : Bool) : String :=
  if !buffer.isEmpty then buffer
  else if error then PINYIN_INFO_ERROR_MESSAGE
  else PINYIN_INFO_PLACE_HOLDER

/-- The switch body of `putc`, returning the updated state and the local
`error` flag (display is set afterwards, as in the source). -/
def putcCore (syllables : List String) (s : CState) (c : String) : CState × Bool :=
  if c = "Backspace" then
    ({ s with pinyinInfoText := String.mk s.pinyinInfoText.data.dropLast }, false)
  else if c = "Clear" then
    ({ s with pinyinInfoText := "", menuHighlightOn := false }, false)
  else if c = "Enter" then
    if (!s.pinyinInfoText.isEmpty) && syllables.contains s.pinyinInfoText then
      ({ s with pinyinInfoText := "", menuHighlightOn := false,
                played := s.played ++ [normalizeBuffer s.pinyinInfoText ++ toneSuffix s] },
       false)
    else
      ({ s with pinyinInfoText := "", menuHighlightOn := false }, true)
  else
    let b := s.pinyinInfoText ++ c
    if pdFind syllables b then
      ({ s with pinyinInfoText := b }, false)
    else
      ({ s with pinyinInfoText := "", menuHighlightOn := false }, true)

/-- The composer's `putc(c)`: the switch, then the info-panel update. -/
def putc (syllables : List String) (s : CState) (c : String) : CState :=
  let r := putcCore syllables s c
  { r.1 with display := putcDisplay r.1.pinyinInfoText r.2 }

/-- Control keys of the composer's keypad (the non-append cases of `putc`). -/
def isControlKey (c : String) : Bool :=
  c == "Backspace" || c == "Clear" || c == "Enter"

/-- Folding a sequence of keys through `putc` from the startup state. -/
def runPutc (syllables : List String) (cs : List String) : CState :=
  cs.foldl (putc syllables) initCState

/-- The composer buffer is empty or a valid prefix of some syllable. -/
def bufferValid (syllables : List String) (s : CState) : Bool :=
  s.pinyinInfoText.isEmpty || pdFind syllables s.pinyinInfoText

/-! ## Entity / pager state -/

/-- Triple of JS numbers (a vector). -/
structure V3 where
  x : JSNum
  y : JSNum
  z : JSNum
  deriving DecidableEq, Repr

/-- Quadruple of JS numbers (a quaternion). -/
structure V4 where
  x : JSNum
  y : JSNum
  z : JSNum
  w : JSNum
  deriving DecidableEq, Repr

/-- An actor transform as the app reads and writes it: the `app` position,
and the `local` position / rotation / scale. -/
structure Transform where
  appPos : V3
  pos : V3
  rot : V4
  scale : V3
  deriving DecidableEq, Repr

/-- The all-zero transform (used only as a lookup fallback that JS object
access cannot hit). -/
def transformZero : Transform :=
  { appPos := ⟨some 0, some 0, some 0⟩
    pos := ⟨some 0, some 0, some 0⟩
    rot := ⟨some 0, some 0, some 0, some 1⟩
    scale := ⟨some 0, some 0, some 0⟩ }

/-- `HANZI_MODEL_ROTATION = Quaternion.FromEulerAngles(0,0,0)`, the identity. -/
def hanziModelRotation : V4 := ⟨some 0, some 0, some 0, some 1⟩

/-- A record of the persisted level file: `{char, transform}`. -/
structure LevelRec where
  char : String
  transform : Transform
  deriving DecidableEq, Repr

/-- Bounding-box dimensions and center of a fetched model. -/
structure Dims where
  width : Rat
  height : Rat
  depth : Rat
  cx : Rat
  cy : Rat
  cz : Rat
  deriving DecidableEq, Repr

/-- The app's environment: the configured owner identity (`OWNER_NAME`),
the full datasets and dictionary of the syllable database (database.ts is
not under src/), the bounding boxes the remote fetch returns, and the
grid-menu width used by the default spawn position. -/
structure Env where
  owner : String
  dbCharacters : List String
  dbRadicals : List String
  pinyinOf : String → String
  dimsOf : String → Dims
  menuWidth : Rat

/-- Modelled from the spec: utils.ts is not under src/. `checkUserName`
compares the acting user's identity against the configured owner identity. -/
def checkUserName (user owner : String) : Bool := user == owner

/-- Everything of the `Hanzi` class the non-composer claims touch. Actor
handles are numbers drawn from `nextId` (each spawn creates a placement box
and a child model actor). `transforms` holds every created box's transform
(a JS object outlives `destroy`); `subscribed` the boxes subscribed to
transform sync; `destroyedActors` the destroyed handles; `boxHighlighted`
the boxes wearing the red bounding-box material; `numberText` the
NumberInput's displayed value; `storage` the level files on disk, keyed by
file path; `menuIndex` the dataset index of the highlighted grid cell
(GridMenu's `getHighlightedIndex`, modelled from the spec as a row-major
dataset index, `none` when nothing is highlighted); `infoChar` the
character shown on the hanzi info panel. -/
structure HState where
  currentScene : String
  curPageNum : JSNum
  radicalPageNum : Option JSNum
  hanziPageNum : Option JSNum
  characters : List String
  radicals : List String
  menuIndex : Option Nat
  infoChar : Option String
  nextId : Nat
  prefabs : List String
  transforms : List (Nat × Transform)
  subscribed : List Nat
  destroyedActors : List Nat
  highlightBoxes : List (Nat × Nat)
  spawnedHanzi : List (Nat × String)
  highlightedActor : Option Nat
  boxHighlighted : List Nat
  numberText : JSNum
  storage : List (String × List LevelRec)
  deriving Repr

/-- `getCharacters()`: the active working list is implied by the scene. -/
def getCharacters (s : HState) : List String :=
  if s.currentScene = "radical_menu" then s.radicals else s.characters

/-- The scene names registered in `init()`. -/
def sceneNames : List String :=
  ["main_menu", "pinyin_menu", "phonetics_table", "radical_menu", "common_hanzi_menu"]

/-- `switchScene(scene)`: no-op when already current; an unknown target from
the uninitialized state falls back to `main_menu`; widget enabling is the
widgets' (external) side. -/
def switchScene (s : HState) (scene : String) : HState :=
  if s.currentScene = scene then s
  else
    let target :=
      if s.currentScene.length = 0 ∧ ¬ sceneNames.contains scene then "main_menu"
      else scene
    { s with currentScene := target }

/-- The home button's click handler: gated by the owner check, then a
navigation reset to the main menu. -/
def homeClick (env : Env) (user : String) (s : HState) : HState :=
  if checkUserName user env.owner then switchScene s "main_menu" else s

/-! ## GridMenu paging (GUI/gridMenu.ts is not under src/) -/

/-- The shared hanzi grid is 8×8, so a page holds 64 entries. -/
def PAGE_SIZE : Nat := 64

/-- Modelled from the spec: number of pages, `ceil(len/pageSize)`. -/
def totalPages (len : Nat) : Nat := (len + PAGE_SIZE - 1) / PAGE_SIZE

/-- Modelled from the spec: `setPageNum(p, total)` clamps `p` into
`[1, ceil(len/pageSize)]`; NaN propagates as in JS arithmetic. -/
def setPageNum (s : HState) (p : JSNum) (len : Nat) : HState :=
  { s with curPageNum := p.map (fun q => min (max q 1) ((totalPages len : Nat) : Rat)) }

/-- Modelled from the spec: `incrementPageNum(total)` bounded page step. -/
def incrementPageNum (s : HState) (len : Nat) : HState :=
  { s with curPageNum := s.curPageNum.map (fun q => min (q + 1) ((totalPages len : Nat) : Rat)) }

/-- Modelled from the spec: `decrementPageNum()` bounded page step. -/
def decrementPageNum (s : HState) : HState :=
  { s with curPageNum := s.curPageNum.map (fun q => max (q - 1) 1) }

/-- Modelled from the spec: `resetPageNum()` returns the cursor to page 1. -/
def resetPageNum (s : HState) : HState :=
  { s with curPageNum := some 1 }

/-! ## Main-menu clicks (lines 261–288): dataset switching with page memory -/

/-- The `'Radicals'` case of the main menu's behavior: switch scene, save
the shared cursor into the common-hanzi slot, restore the radical slot when
one is remembered. -/
def clickMainRadicals (s : HState) : HState :=
  if s.currentScene ≠ "main_menu" then s
  else
    let s1 := switchScene s "radical_menu"
    let s2 := { s1 with hanziPageNum := some s1.curPageNum }
    match s2.radicalPageNum with
    | some r => setPageNum s2 r (getCharacters s2).length
    | none => s2

/-- The `'Common'` case of the main menu's behavior, symmetric to
`clickMainRadicals`. -/
def clickMainCommon (s : HState) : HState :=
  if s.currentScene ≠ "main_menu" then s
  else
    let s1 := switchScene s "common_hanzi_menu"
    let s2 := { s1 with radicalPageNum := some s1.curPageNum }
    match s2.hanziPageNum with
    | some r => setPageNum s2 r (getCharacters s2).length
    | none => s2

/-! ## Search (`searchHanzi`, lines 1107–1125) -/

/-- `searchHanzi(search)`: replace the scene-implied working list with the
full source dataset (empty query) or the entries of the full source dataset
whose pinyin reading contains the query as a substring. -/
def searchHanzi (env : Env) (s : HState) (search : String) : HState :=
  if s.currentScene = "common_hanzi_menu" then
    if search.length = 0 then { s with characters := env.dbCharacters }
    else
      { s with characters :=
          env.dbCharacters.filter (fun c => jsIncludes (env.pinyinOf c) search) }
  else
    if search.length = 0 then { s with radicals := env.dbRadicals }
    else
      { s with radicals :=
          env.dbRadicals.filter (fun c => jsIncludes (env.pinyinOf c) search) }

/-! ## Spawned-entity lifecycle (lines 1148–1311) -/

/-- Default spawn transform: beside the grid, model-to-world scale, zero
rotation (the `transform` computed in `spawnItem` when none is supplied). -/
def defaultTransform (env : Env) (ch : String) : Transform :=
  let dim := env.dimsOf ch
  let px : Rat := env.menuWidth + (5 / 100 : Rat) + dim.width * HANZI_MODEL_SCALE / 2
  let py : Rat := -(dim.height * HANZI_MODEL_SCALE / 2)
  { appPos := ⟨some px, some py, some 0⟩
    pos := ⟨some px, some py, some 0⟩
    rot := hanziModelRotation
    scale := ⟨some HANZI_MODEL_SCALE, some HANZI_MODEL_SCALE, some HANZI_MODEL_SCALE⟩ }

/-- `spawnItem(char, transform?, editor)`: no-op on an undefined character;
otherwise cache the prefab on first use (fetch assumed successful), create
the invisible placement box with the given or default transform, subscribe
it when editable, create the child model actor, and record the
actor→box and box→character associations. The editable click handler it
attaches is embedded separately as `boxClick`. -/
def spawnItem (env : Env) (s : HState) (char : Option String) (tr : Option Transform)
    (editor : Bool) : HState :=
  match char with
  | none => s
  | some ch =>
    let s0 := if s.prefabs.contains ch then s else { s with prefabs := ch :: s.prefabs }
    let transform := match tr with | some t => t | none => defaultTransform env ch
    let box := s0.nextId
    let actor := s0.nextId + 1
    { s0 with
      nextId := s0.nextId + 2
      transforms := mapSet s0.transforms box transform
      subscribed := if editor then insertNew s0.subscribed box else s0.subscribed
      highlightBoxes := mapSet s0.highlightBoxes actor box
      spawnedHanzi := mapSet s0.spawnedHanzi box ch }

/-- The editable box's click handler (attached in `spawnItem`): gated by the
owner check; exclusive selection — clicking a different entity reverts the
previous highlight and selects the new one (updating the info panel),
clicking the selected entity deselects it. `actor` and `box` are the values
the closure captured at spawn time. -/
def boxClick (env : Env) (user : String) (s : HState) (actor box : Nat) : HState :=
  if checkUserName user env.owner then
    if s.highlightedActor ≠ some actor then
      let s1 :=
        match s.highlightedActor with
        | some prev =>
          match mapGet s.highlightBoxes prev with
          | some pbox => { s with boxHighlighted := s.boxHighlighted.filter (fun b => b ≠ pbox) }
          | none => s
        | none => s
      { s1 with
        boxHighlighted := insertNew s1.boxHighlighted box
        highlightedActor := some actor
        infoChar :=
          match mapGet s.spawnedHanzi box with
          | some c => some c
          | none => s1.infoChar }
    else
      { s with
        boxHighlighted := s.boxHighlighted.filter (fun b => b ≠ box)
        highlightedActor := none }
  else s

/-- The mutations `deleteItem` performs once the box lookup has succeeded:
unsubscribe the box, drop its character tracking, destroy the child actor
and the box. Destruction and unsubscription are idempotent on the SDK side,
so they are modelled with set semantics. -/
def deleteItemCore (s : HState) (actor box : Nat) : HState :=
  { s with
    subscribed := s.subscribed.filter (fun n => n ≠ box)
    spawnedHanzi := mapDelete s.spawnedHanzi box
    destroyedActors := insertNew (insertNew s.destroyedActors actor) box }

/-- `deleteItem(actor)`: look the box up in `highlightBoxes` — `none` models
the TypeError `box.unsubscribe` would raise on an undefined box (before any
mutation, so the state is unchanged on that path). Note the function never
removes the `highlightBoxes` entry or clears `highlightedActor`. -/
def deleteItem (s : HState) (actor : Nat) : Option HState :=
  match mapGet s.highlightBoxes actor with
  | none => none
  | some box => some (deleteItemCore s actor box)

/-- The serialized level: every live (box → character) pair with the box's
current transform, in `spawnedHanzi` insertion order. -/
def levelOf (s : HState) : List LevelRec :=
  s.spawnedHanzi.map (fun p =>
    { char := p.2, transform := (mapGet s.transforms p.1).getD transformZero })

/-- The path `saveLevel` writes: the filename sanitized to its base name
inside the levels directory. -/
def saveLevelPath (filename : String) : String :=
  "./public/levels/" ++ posixBasename filename ++ ".json"

/-- The path `loadLevel` checks and fetches: the raw filename interpolated
into the levels directory (`./public/levels/${filename}.json`; the fetch
goes through `baseUrl` but serves the same `./public` tree). -/
def loadLevelPath (filename : String) : String :=
  "./public/levels/" ++ filename ++ ".json"

/-- `saveLevel(filename)`: serialize the live entities; when a file of that
name already exists, the overwrite prompt's answer is the `overwriteOk`
parameter; the write itself is assumed to succeed (a failure is reported
and nothing else changes). -/
def saveLevel (s : HState) (filename : String) (overwriteOk : Bool) : HState :=
  let level := levelOf s
  let filePath := saveLevelPath filename
  if mapHas s.storage filePath then
    if overwriteOk then { s with storage := mapSet s.storage filePath level } else s
  else { s with storage := mapSet s.storage filePath level }

/-- `loadLevel(filename, editor)`: report and do nothing when the file does
not exist, else spawn every recorded (character, transform) pair in order
through the same `spawnItem` path. -/
def loadLevel (env : Env) (s : HState) (filename : String) (editor : Bool) : HState :=
  match mapGet s.storage (loadLevelPath filename) with
  | none => s
  | some level =>
    level.foldl (fun st d => spawnItem env st (some d.char) (some d.transform) editor) s

/-- `clearLevel()`: `highlightBoxes.forEach((_, k) => deleteItem(k))` — every
actor key ever recorded is deleted, in insertion order ( `deleteItem` never
fails here because it never removes `highlightBoxes` entries). -/
def clearLevel (s : HState) : HState :=
  s.highlightBoxes.foldl (fun st p => (deleteItem st p.1).getD st) s

/-! ## Common-hanzi control strip (lines 830–897) and NumberInput handlers -/

/-- The control strip and NumberInput act in both hanzi scenes. -/
def hanziSceneGate (s : HState) : Bool :=
  s.currentScene == "common_hanzi_menu" || s.currentScene == "radical_menu"

/-- The `'Search'` case: prompt, then on submission search and reset the
page cursor (the handler receives the acting user but never consults it). -/
def controlSearch (env : Env) (_user : String) (s : HState)
    (submitted : Bool) (text : String) : HState :=
  if hanziSceneGate s then
    if submitted then resetPageNum (searchHanzi env s text) else s
  else s

/-- The `'Goto'` case: prompt, `parseInt`, then the (ineffective) `p !== NaN`
guard before `setPageNum`. -/
def controlGoto (_user : String) (s : HState) (submitted : Bool) (text : String) : HState :=
  if hanziSceneGate s then
    if submitted then
      let p := jsParseInt text
      if jsStrictNeq p jsNaN then setPageNum s p (getCharacters s).length else s
    else s
  else s

/-- The `'Prev'` case. -/
def controlPrev (_user : String) (s : HState) : HState :=
  if hanziSceneGate s then decrementPageNum s else s

/-- The `'Next'` case. -/
def controlNext (_user : String) (s : HState) : HState :=
  if hanziSceneGate s then incrementPageNum s (getCharacters s).length else s

/-- The `'Spawn'` case: the highlighted cell's dataset entry (undefined when
out of range or nothing is highlighted) goes to `spawnItem`. -/
def controlSpawn (env : Env) (_user : String) (s : HState) : HState :=
  if hanziSceneGate s then
    let char := s.menuIndex.bind (fun i => (getCharacters s).get? i)
    spawnItem env s char none true
  else s

/-- The `'Delete'` case: delete the selected entity when one is selected
(the `getD` arm is the unreachable TypeError path, which mutates nothing). -/
def controlDelete (_user : String) (s : HState) : HState :=
  if hanziSceneGate s then
    match s.highlightedActor with
    | some a => (deleteItem s a).getD s
    | none => s
  else s

/-- The `'Save'` case: prompt for a name, then `saveLevel`. -/
def controlSave (_user : String) (s : HState) (submitted : Bool) (text : String)
    (overwriteOk : Bool) : HState :=
  if hanziSceneGate s then
    if submitted then saveLevel s text overwriteOk else s
  else s

/-- The `'Load'` case: prompt for a name, then `loadLevel`. -/
def controlLoad (env : Env) (_user : String) (s : HState) (submitted : Bool)
    (text : String) : HState :=
  if hanziSceneGate s then
    if submitted then loadLevel env s text true else s
  else s

/-- The `'Clear'` case: confirmation prompt, then `clearLevel`. -/
def controlClear (_user : String) (s : HState) (submitted : Bool) : HState :=
  if hanziSceneGate s then
    if submitted then clearLevel s else s
  else s

/-- The NumberInput's increase handler: bump the selected box's scale by
`SCALE_STEP` on all three axes and show the display-unit value. -/
def numberIncrease (s : HState) : HState :=
  if hanziSceneGate s then
    match s.highlightedActor with
    | none => s
    | some a =>
      match mapGet s.highlightBoxes a with
      | none => s
      | some box =>
        match mapGet s.transforms box with
        | none => s
        | some tr =>
          let sc : V3 :=
            ⟨jsAdd tr.scale.x (some SCALE_STEP), jsAdd tr.scale.y (some SCALE_STEP),
              jsAdd tr.scale.z (some SCALE_STEP)⟩
          { s with
            transforms := mapSet s.transforms box { tr with scale := sc }
            numberText := jsDiv sc.x (some HANZI_MODEL_SCALE) }
  else s

/-- The NumberInput's decrease handler, symmetric to `numberIncrease`. -/
def numberDecrease (s : HState) : HState :=
  if hanziSceneGate s then
    match s.highlightedActor with
    | none => s
    | some a =>
      match mapGet s.highlightBoxes a with
      | none => s
      | some box =>
        match mapGet s.transforms box with
        | none => s
        | some tr =>
          let sc : V3 :=
            ⟨jsSub tr.scale.x (some SCALE_STEP), jsSub tr.scale.y (some SCALE_STEP),
              jsSub tr.scale.z (some SCALE_STEP)⟩
          { s with
            transforms := mapSet s.transforms box { tr with scale := sc }
            numberText := jsDiv sc.x (some HANZI_MODEL_SCALE) }
  else s

/-- The NumberInput's edit handler: prompt for a value, multiply by the
model-to-world factor, then the (ineffective) `int !== NaN` guard before
assigning all three scale axes. -/
def numberEdit (_user : String) (s : HState) (submitted : Bool) (text : String) : HState :=
  if hanziSceneGate s then
    match s.highlightedActor with
    | none => s
    | some a =>
      if submitted then
        let i := jsMul (jsParseInt text) (some HANZI_MODEL_SCALE)
        if jsStrictNeq i jsNaN then
          match mapGet s.highlightBoxes a with
          | none => s
          | some box =>
            match mapGet s.transforms box with
            | none => s
            | some tr =>
              { s with
                transforms := mapSet s.transforms box { tr with scale := ⟨i, i, i⟩ }
                numberText := jsDiv i (some HANZI_MODEL_SCALE) }
        else s
      else s
  else s

/-- Live entities as (character, transform) pairs — the level's in-memory
representation that the round-trip claim compares. -/
def pairsOf (s : HState) : List (String × Transform) :=
  s.spawnedHanzi.map (fun p => (p.2, (mapGet s.transforms p.1).getD transformZero))

/-- Actions available inside a hanzi scene between two dataset visits (the
round-trip claim's "intervening" steps): page navigation and search. -/
inductive MenuAction where
  | next : MenuAction
  | prev : MenuAction
  | goto (submitted : Bool) (text : String) : MenuAction
  | search (submitted : Bool) (text : String) : MenuAction

/-- Apply one intervening action through the corresponding handler. -/
def applyMenuAction (env : Env) (user : String) (s : HState) : MenuAction → HState
  | MenuAction.next => controlNext user s
  | MenuAction.prev => controlPrev user s
  | MenuAction.goto sub t => controlGoto user s sub t
  | MenuAction.search sub t => controlSearch env user s sub t

/-- Scene tag of a dataset: `true` is the radicals dataset. -/
def datasetScene (radSide : Bool) : String :=
  if radSide then "radical_menu" else "common_hanzi_menu"

/-- The main-menu click that enters a dataset's scene. -/
def clickDataset (radSide : Bool) (s : HState) : HState :=
  if radSide then clickMainRadicals s else clickMainCommon s

/-- A dataset's remembered page slot. -/
def slotOf (radSide : Bool) (s : HState) : Option JSNum :=
  if radSide then s.radicalPageNum else s.hanziPageNum

/-- A dataset's working list. -/
def listOf (radSide : Bool) (s : HState) : List String :=
  if radSide then s.radicals else s.characters

/-! ## Concrete sample data used by witnesses and counterexamples -/

/-- A sample bounding box. -/
def sampleDims : Dims := ⟨1, 1, 1, 0, 0, 0⟩

/-- A sample environment with owner identity `"owner"`. -/
def sampleEnv : Env :=
  { owner := "owner"
    dbCharacters := ["一", "人"]
    dbRadicals := ["人"]
    pinyinOf := fun c => if c = "一" then "yi1" else "ren2"
    dimsOf := fun _ => sampleDims
    menuWidth := 1 }

/-- A sample app state in the common-hanzi scene with nothing spawned. -/
def baseState : HState :=
  { currentScene := "common_hanzi_menu"
    curPageNum := some 1
    radicalPageNum := none
    hanziPageNum := none
    characters := ["一", "人"]
    radicals := ["人"]
    menuIndex := some 0
    infoChar := none
    nextId := 0
    prefabs := []
    transforms := []
    subscribed := []
    destroyedActors := []
    highlightBoxes := [(1, 0)]
    spawnedHanzi := []
    highlightedActor := none
    boxHighlighted := []
    numberText := some 0
    storage := [] }

/-- The sample state moved to the radical-menu scene. -/
def radicalMenuState : HState := { baseState with currentScene := "radical_menu" }

/-- A sample transform at the default model scale. -/
def sampleTransform : Transform :=
  { appPos := ⟨some 0, some 0, some 0⟩
    pos := ⟨some 0, some 0, some 0⟩
    rot := hanziModelRotation
    scale := ⟨some HANZI_MODEL_SCALE, some HANZI_MODEL_SCALE, some HANZI_MODEL_SCALE⟩ }

/-- A sample state with one spawned entity (box 0, child actor 1) selected. -/
def oneEntityState : HState :=
  { baseState with
    nextId := 2
    prefabs := ["一"]
    transforms := [(0, sampleTransform)]
    subscribed := [0]
    highlightBoxes := [(1, 0)]
    spawnedHanzi := [(0, "一")]
    highlightedActor := some 1 }

/-- A sample state with two spawned entities (boxes 0 and 2, actors 1 and 3). -/
def twoEntityState : HState :=
  { baseState with
    nextId := 4
    prefabs := ["一", "人"]
    transforms := [(0, sampleTransform), (2, sampleTransform)]
    subscribed := [0, 2]
    highlightBoxes := [(1, 0), (3, 2)]
    spawnedHanzi := [(0, "一"), (2, "人")]
    highlightedActor := none }

/-! ## Helper lemmas about the map model -/

theorem mapGet_set_self {κ β : Type} [DecidableEq κ] (m : List (κ × β)) (k : κ) (v : β) :
    mapGet (mapSet m k v) k = some v := by
  induction m with
  | nil => simp [mapGet, mapSet]
  | cons p m ih =>
    by_cases h : p.1 = k
    · simp [mapSet, h, mapGet]
    · simp [mapSet, h, mapGet, ih]

theorem mapGet_set_ne {κ β : Type} [DecidableEq κ] (m : List (κ × β)) (k k' : κ) (v : β)
    (h : k' ≠ k) : mapGet (mapSet m k v) k' = mapGet m k' := by
  induction m with
  | nil =>
    have hk : ¬ (k = k') := fun hh => h hh.symm
    simp [mapGet, mapSet, hk]
  | cons p m ih =>
    by_cases hp : p.1 = k
    · have hk : ¬ (k = k') := fun hh => h hh.symm
      have hpk : ¬ (p.1 = k') := by rw [hp]; exact hk
      simp only [mapSet, if_pos hp, mapGet, if_neg hk, if_neg hpk]
    · simp only [mapSet, if_neg hp, mapGet]
      by_cases hp' : p.1 = k'
      · simp [hp']
      · simp [hp', ih]

theorem mapGet_eq_none_of_keys {κ β : Type} [DecidableEq κ] (m : List (κ × β)) (k : κ)
    (h : ∀ p ∈ m, p.1 ≠ k) : mapGet m k = none := by
  induction m with
  | nil => rfl
  | cons p m ih =>
    have h1 := h p (by simp)
    simp only [mapGet, if_neg h1]
    exact ih (fun q hq => h q (by simp [hq]))

theorem mapSet_eq_append {κ β : Type} [DecidableEq κ] (m : List (κ × β)) (k : κ) (v : β)
    (h : mapGet m k = none) : mapSet m k v = m ++ [(k, v)] := by
  induction m with
  | nil => rfl
  | cons p m ih =>
    by_cases hp : p.1 = k
    · simp [mapGet, hp] at h
    · simp only [mapGet, if_neg hp] at h
      simp [mapSet, hp, ih h]

theorem mapGet_of_nodup_mem {κ β : Type} [DecidableEq κ] (m : List (κ × β))
    (hnd : (m.map Prod.fst).Nodup) (p : κ × β) (hp : p ∈ m) : mapGet m p.1 = some p.2 := by
  induction m with
  | nil => simp at hp
  | cons q m ih =>
    rcases List.mem_cons.mp hp with h | h
    · subst h; simp [mapGet]
    · have hq : q.1 ≠ p.1 := by
        intro he
        have : p.1 ∈ m.map Prod.fst := List.mem_map_of_mem Prod.fst h
        rw [List.map_cons, List.nodup_cons] at hnd
        exact hnd.1 (he ▸ this)
      rw [List.map_cons, List.nodup_cons] at hnd
      simp only [mapGet, if_neg hq]
      exact ih hnd.2 h

theorem mapDelete_eq_filter {κ β : Type} [DecidableEq κ] (m : List (κ × β)) (k : κ) :
    mapDelete m k = m.filter (fun p => !(decide (p.1 = k))) := by
  induction m with
  | nil => rfl
  | cons p m ih =>
    by_cases hp : p.1 = k
    · simp [mapDelete, hp, List.filter, ih]
    · simp [mapDelete, hp, List.filter, ih]

theorem filter_self_idem {α : Type} (p : α → Bool) (l : List α) :
    (l.filter p).filter p = l.filter p := by
  rw [List.filter_filter]
  exact List.filter_congr (fun a _ => Bool.and_self (p a))

theorem insertNew_contains_self (l : List Nat) (n : Nat) :
    (insertNew l n).contains n = true := by
  unfold insertNew
  split
  · assumption
  · simp

theorem insertNew_contains_of (l : List Nat) (n m : Nat) (h : l.contains m = true) :
    (insertNew l n).contains m = true := by
  unfold insertNew
  split
  · exact h
  · simp only [List.contains_cons, Bool.or_eq_true]
    exact Or.inr h

theorem insertNew_eq_of_contains (l : List Nat) (n : Nat) (h : l.contains n = true) :
    insertNew l n = l := by
  have hm : n ∈ l := by simpa using h
  simp [insertNew, hm]

/-! ## Composer lemmas and claims C3, C4 -/

theorem putc_append_char (syllables : List String) (s : CState) (c : String)
    (h : isControlKey c = false) :
    putc syllables s c =
      if pdFind syllables (s.pinyinInfoText ++ c) = true then
        { s with pinyinInfoText := s.pinyinInfoText ++ c,
                 display := putcDisplay (s.pinyinInfoText ++ c) false }
      else
        { s with pinyinInfoText := "", menuHighlightOn := false,
                 display := PINYIN_INFO_ERROR_MESSAGE } := by
  simp only [isControlKey, Bool.or_eq_false_iff, beq_eq_false_iff_ne, ne_eq] at h
  obtain ⟨⟨h1, h2⟩, h3⟩ := h
  simp only [putc, putcCore, if_neg h1, if_neg h2, if_neg h3]
  by_cases hf : pdFind syllables (s.pinyinInfoText ++ c) = true
  · simp [hf]
  · simp only [Bool.not_eq_true] at hf
    simp [hf, putcDisplay, show ("" : String).isEmpty = true from rfl]

theorem bufferValid_putc (syllables : List String) (s : CState) (c : String)
    (h : isControlKey c = false) :
    bufferValid syllables (putc syllables s c) = true := by
  rw [putc_append_char syllables s c h]
  by_cases hf : pdFind syllables (s.pinyinInfoText ++ c) = true
  · simp [hf, bufferValid]
  · simp only [Bool.not_eq_true] at hf
    simp [hf, bufferValid, show ("" : String).isEmpty = true from rfl]

theorem bufferValid_foldl (syllables : List String) (l : List String)
    (h : ∀ c ∈ l, isControlKey c = false) (s : CState)
    (hs : bufferValid syllables s = true) :
    bufferValid syllables (l.foldl (putc syllables) s) = true := by
  induction l generalizing s with
  | nil => exact hs
  | cons c l ih =>
    simp only [List.foldl_cons]
    exact ih (fun d hd => h d (by simp [hd])) _
      (bufferValid_putc syllables s c (h c (by simp)))



/-- C3: along any sequence of non-control keys fed to `putc` from the
startup state, every intermediate buffer is empty or a prefix of at least
one valid syllable, and the first key that breaks prefix validity resets
the buffer to empty and puts the error message on the info panel (where it
stays until the next input recomputes the display). -/
theorem putc_prefix_validity (syllables : List String) (cs : List String)
    (hcs : ∀ c ∈ cs, isControlKey c = false) :
    (∀ pre rest, pre ++ rest = cs →
      bufferValid syllables (runPutc syllables pre) = true)
    ∧ (∀ pre c rest, pre ++ c :: rest = cs →
        pdFind syllables ((runPutc syllables pre).pinyinInfoText ++ c) = false →
        (runPutc syllables (pre ++ [c])).pinyinInfoText = ""
        ∧ (runPutc syllables (pre ++ [c])).display = PINYIN_INFO_ERROR_MESSAGE) := by
  have hinit : bufferValid syllables initCState = true := rfl
  constructor
  · intro pre rest hsplit
    apply bufferValid_foldl
    · intro c hc
      exact hcs c (by rw [← hsplit]; exact List.mem_append_left rest hc)
    · exact hinit
  · intro pre c rest hsplit hbreak
    have hc : isControlKey c = false :=
      hcs c (by rw [← hsplit]; exact List.mem_append_right _ (by simp))
    have hrun : runPutc syllables (pre ++ [c]) = putc syllables (runPutc syllables pre) c := by
      unfold runPutc
      rw [List.foldl_append]
      rfl
    rw [hrun, putc_append_char _ _ _ hc, if_neg (by simp [hbreak])]
    exact ⟨rfl, rfl⟩

theorem putc_prefix_validity_witness :
    (∀ pre rest, pre ++ rest = ["zh", "q"] →
      bufferValid ["zhang"] (runPutc ["zhang"] pre) = true)
    ∧ (∀ pre c rest, pre ++ c :: rest = ["zh", "q"] →
        pdFind ["zhang"] ((runPutc ["zhang"] pre).pinyinInfoText ++ c) = false →
        (runPutc ["zhang"] (pre ++ [c])).pinyinInfoText = ""
        ∧ (runPutc ["zhang"] (pre ++ [c])).display = PINYIN_INFO_ERROR_MESSAGE) :=
  putc_prefix_validity ["zhang"] ["zh", "q"] (by decide)

theorem putc_enter (syllables : List String) (s : CState) :
    putc syllables s "Enter" =
      (if ((!s.pinyinInfoText.isEmpty) && syllables.contains s.pinyinInfoText) = true then
        { s with pinyinInfoText := "", menuHighlightOn := false,
                 played := s.played ++ [normalizeBuffer s.pinyinInfoText ++ toneSuffix s],
                 display := PINYIN_INFO_PLACE_HOLDER }
      else
        { s with pinyinInfoText := "", menuHighlightOn := false,
                 display := PINYIN_INFO_ERROR_MESSAGE }) := by
  by_cases hcond : ((!s.pinyinInfoText.isEmpty) && syllables.contains s.pinyinInfoText) = true
  · rw [if_pos hcond]
    unfold putc putcCore
    rw [if_neg (show ¬ (("Enter" : String) = "Backspace") by decide),
        if_neg (show ¬ (("Enter" : String) = "Clear") by decide),
        if_pos (rfl : ("Enter" : String) = "Enter"), if_pos hcond]
    rfl
  · rw [if_neg hcond]
    unfold putc putcCore
    rw [if_neg (show ¬ (("Enter" : String) = "Backspace") by decide),
        if_neg (show ¬ (("Enter" : String) = "Clear") by decide),
        if_pos (rfl : ("Enter" : String) = "Enter"), if_neg hcond]
    rfl

/-- C4: Enter invokes audio playback (the normalized buffer plus the
selected tone digit is handed to `playSound`) exactly when the buffer
equals a syllable of the database's exact-match set, and the buffer is
empty after every Enter, successful or not. The empty string is not a
syllable of the database (`hempty`), matching the code's truthiness
guard. -/
theorem putc_enter_exact_commit (syllables : List String) (s : CState)
    (hempty : syllables.contains "" = false) :
    ((putc syllables s "Enter").played ≠ s.played
        ↔ syllables.contains s.pinyinInfoText = true)
    ∧ (syllables.contains s.pinyinInfoText = true →
        (putc syllables s "Enter").played
          = s.played ++ [normalizeBuffer s.pinyinInfoText ++ toneSuffix s])
    ∧ (putc syllables s "Enter").pinyinInfoText = "" := by
  rw [putc_enter]
  by_cases hcon : syllables.contains s.pinyinInfoText = true
  · have hne : s.pinyinInfoText ≠ "" := by
      intro he
      rw [he] at hcon
      rw [hcon] at hempty
      cases hempty
    have hie : s.pinyinInfoText.isEmpty = false := by
      rw [Bool.eq_false_iff]
      intro he
      exact hne ((String.isEmpty_iff _).mp he)
    have hcondT : ((!s.pinyinInfoText.isEmpty) && syllables.contains s.pinyinInfoText) = true := by
      rw [hie, hcon]
      rfl
    rw [if_pos hcondT]
    refine ⟨?_, fun _ => rfl, rfl⟩
    have hmem : s.pinyinInfoText ∈ syllables := by simpa using hcon
    simp [hmem]
  · have hcon2 : syllables.contains s.pinyinInfoText = false := by
      simpa using hcon
    have hnc : ¬ (((!s.pinyinInfoText.isEmpty) && syllables.contains s.pinyinInfoText) = true) := by
      rw [hcon2]
      simp
    rw [if_neg hnc]
    refine ⟨?_, ?_, rfl⟩
    · have hnm : s.pinyinInfoText ∉ syllables := by simpa using hcon2
      simp [hnm]
    · intro hcc
      rw [hcc] at hcon2
      cases hcon2

theorem putc_enter_exact_commit_witness :
    ((putc ["ma"] { initCState with pinyinInfoText := "ma" } "Enter").played
        ≠ ({ initCState with pinyinInfoText := "ma" } : CState).played
      ↔ (["ma"] : List String).contains
          ({ initCState with pinyinInfoText := "ma" } : CState).pinyinInfoText = true)
    ∧ ((["ma"] : List String).contains
          ({ initCState with pinyinInfoText := "ma" } : CState).pinyinInfoText = true →
        (putc ["ma"] { initCState with pinyinInfoText := "ma" } "Enter").played
          = ({ initCState with pinyinInfoText := "ma" } : CState).played
            ++ [normalizeBuffer
                  ({ initCState with pinyinInfoText := "ma" } : CState).pinyinInfoText
                ++ toneSuffix { initCState with pinyinInfoText := "ma" }])
    ∧ (putc ["ma"] { initCState with pinyinInfoText := "ma" } "Enter").pinyinInfoText = "" :=
  putc_enter_exact_commit ["ma"] { initCState with pinyinInfoText := "ma" } (by decide)

/-! ## Pager lemmas and claims C6, C7 -/

/-- Every intervening hanzi-scene action preserves the scene pointer, both
remembered page slots, and the working list of any dataset that is not the
scene's active one. -/
theorem menuAction_preserves (env : Env) (user : String) (t : HState) (m : MenuAction) :
    (applyMenuAction env user t m).currentScene = t.currentScene
    ∧ (applyMenuAction env user t m).radicalPageNum = t.radicalPageNum
    ∧ (applyMenuAction env user t m).hanziPageNum = t.hanziPageNum
    ∧ (t.currentScene = "common_hanzi_menu" →
        (applyMenuAction env user t m).radicals = t.radicals)
    ∧ (t.currentScene ≠ "common_hanzi_menu" →
        (applyMenuAction env user t m).characters = t.characters) := by
  cases m with
  | next =>
    simp only [applyMenuAction, controlNext, incrementPageNum]
    split_ifs <;> simp
  | prev =>
    simp only [applyMenuAction, controlPrev, decrementPageNum]
    split_ifs <;> simp
  | goto sub txt =>
    simp only [applyMenuAction, controlGoto, setPageNum]
    split_ifs <;> simp
  | search sub txt =>
    simp only [applyMenuAction, controlSearch, resetPageNum, searchHanzi]
    split_ifs <;> simp_all

/-- `menuAction_preserves` lifted to a whole sequence of actions. -/
theorem menuActions_fold_preserves (env : Env) (user : String) (acts : List MenuAction)
    (t : HState) :
    (acts.foldl (applyMenuAction env user) t).currentScene = t.currentScene
    ∧ (acts.foldl (applyMenuAction env user) t).radicalPageNum = t.radicalPageNum
    ∧ (acts.foldl (applyMenuAction env user) t).hanziPageNum = t.hanziPageNum
    ∧ (t.currentScene = "common_hanzi_menu" →
        (acts.foldl (applyMenuAction env user) t).radicals = t.radicals)
    ∧ (t.currentScene ≠ "common_hanzi_menu" →
        (acts.foldl (applyMenuAction env user) t).characters = t.characters) := by
  induction acts generalizing t with
  | nil => exact ⟨rfl, rfl, rfl, fun _ => rfl, fun _ => rfl⟩
  | cons m acts ih =>
    simp only [List.foldl_cons]
    obtain ⟨h1, h2, h3, h4, h5⟩ := menuAction_preserves env user t m
    obtain ⟨g1, g2, g3, g4, g5⟩ := ih (applyMenuAction env user t m)
    refine ⟨g1.trans h1, g2.trans h2, g3.trans h3, ?_, ?_⟩
    · intro hc
      exact (g4 (h1.symm ▸ hc)).trans (h4 hc)
    · intro hc
      exact (g5 (h1.symm ▸ hc)).trans (h5 hc)

/-- Switching to a known scene from a different one only moves the pointer. -/
theorem switchScene_to_known (s : HState) (name : String)
    (hn : sceneNames.contains name = true) (hne : s.currentScene ≠ name) :
    switchScene s name = { s with currentScene := name } := by
  have hm : name ∈ sceneNames := by simpa using hn
  simp [switchScene, hne, hm]

/-- The owner's home click is exactly the navigation reset. -/
theorem homeClick_as_owner (env : Env) (user : String) (s : HState)
    (howner : checkUserName user env.owner = true) (hne : s.currentScene ≠ "main_menu") :
    homeClick env user s = { s with currentScene := "main_menu" } := by
  rw [homeClick, if_pos howner]
  exact switchScene_to_known s "main_menu" (by decide) hne

theorem datasetScene_ne_main (a : Bool) : datasetScene a ≠ "main_menu" := by
  cases a <;> decide

/-- What a dataset's main-menu click does from the main menu: enter the
scene, save the shared cursor into the other dataset's slot, keep this
dataset's slot and both working lists, and restore the cursor from this
dataset's slot when one is remembered (clamped against the active list). -/
theorem clickDataset_from_main (a : Bool) (t : HState) (ht : t.currentScene = "main_menu") :
    (clickDataset a t).currentScene = datasetScene a
    ∧ slotOf (!a) (clickDataset a t) = some t.curPageNum
    ∧ slotOf a (clickDataset a t) = slotOf a t
    ∧ (clickDataset a t).characters = t.characters
    ∧ (clickDataset a t).radicals = t.radicals
    ∧ (slotOf a t = none → (clickDataset a t).curPageNum = t.curPageNum)
    ∧ (∀ r, slotOf a t = some r →
        (clickDataset a t).curPageNum
          = r.map (fun q => min (max q 1) ((totalPages (listOf a t).length : Nat) : Rat))) := by
  cases a with
  | true =>
    simp only [clickDataset, clickMainRadicals, if_true]
    rw [if_neg (by simp [ht])]
    rw [switchScene_to_known t "radical_menu" (by decide) (by rw [ht]; decide)]
    cases hslot : t.radicalPageNum with
    | none => simp [slotOf, datasetScene, listOf, hslot, ht]
    | some r => simp [slotOf, datasetScene, listOf, hslot, ht, setPageNum, getCharacters]
  | false =>
    simp only [clickDataset, clickMainCommon, if_false]
    rw [if_neg (by simp [ht])]
    rw [switchScene_to_known t "common_hanzi_menu" (by decide) (by rw [ht]; decide)]
    cases hslot : t.hanziPageNum with
    | none => simp [slotOf, datasetScene, listOf, hslot, ht]
    | some r => simp [slotOf, datasetScene, listOf, hslot, ht, setPageNum, getCharacters]

theorem slotOf_update_scene (a : Bool) (s : HState) (n : String) :
    slotOf a { s with currentScene := n } = slotOf a s := by
  cases a <;> rfl

theorem listOf_congr_fields (a : Bool) (s t : HState) (hch : s.characters = t.characters)
    (hrad : s.radicals = t.radicals) : listOf a s = listOf a t := by
  cases a <;> simp [listOf, hch, hrad]

/-- C6: for the two datasets A and B, leaving A on page `p` (home button,
then B's main-menu entry), doing any sequence of page navigation and search
actions inside B, and returning to A (home, then A's entry) restores A's
page cursor to `p`; throughout the stay in B, A's remembered slot still
holds `p` — each dataset's remembered cursor is independent of the
other's actions. -/
theorem dataset_page_memory (env : Env) (user : String) (a : Bool) (s : HState)
    (p : Nat) (acts : List MenuAction)
    (howner : checkUserName user env.owner = true)
    (hscene : s.currentScene = datasetScene a)
    (hcur : s.curPageNum = some ((p : Nat) : Rat))
    (hp1 : 1 ≤ p) (hp2 : p ≤ totalPages (listOf a s).length) :
    (clickDataset a (homeClick env user
        (acts.foldl (applyMenuAction env user)
          (clickDataset (!a) (homeClick env user s))))).curPageNum
      = some ((p : Nat) : Rat)
    ∧ slotOf a (acts.foldl (applyMenuAction env user)
        (clickDataset (!a) (homeClick env user s)))
      = some (some ((p : Nat) : Rat)) := by
  have h0 : homeClick env user s = { s with currentScene := "main_menu" } :=
    homeClick_as_owner env user s howner (by rw [hscene]; exact datasetScene_ne_main a)
  rw [h0]
  obtain ⟨c1, c2, c3, c4, c5, _, _⟩ :=
    clickDataset_from_main (!a) { s with currentScene := "main_menu" } rfl
  set s2 := clickDataset (!a) { s with currentScene := "main_menu" } with hs2
  have hslot2 : slotOf a s2 = some (some ((p : Nat) : Rat)) := by
    have := c2
    rw [Bool.not_not] at this
    rw [this]
    simp [hcur]
  have hlist2 : listOf a s2 = listOf a s := by
    apply listOf_congr_fields <;> simp [c4, c5]
  obtain ⟨f1, f2, f3, f4, f5⟩ := menuActions_fold_preserves env user acts s2
  set s3 := acts.foldl (applyMenuAction env user) s2 with hs3
  have hslot3 : slotOf a s3 = some (some ((p : Nat) : Rat)) := by
    cases a with
    | true => rw [show slotOf true s3 = s3.radicalPageNum from rfl, f2]; exact hslot2
    | false => rw [show slotOf false s3 = s3.hanziPageNum from rfl, f3]; exact hslot2
  have hlist3 : listOf a s3 = listOf a s := by
    refine Eq.trans ?_ hlist2
    cases a with
    | true =>
      have hsc : s2.currentScene = "common_hanzi_menu" := by
        rw [c1]; rfl
      exact f4 hsc
    | false =>
      have hsc : s2.currentScene ≠ "common_hanzi_menu" := by
        rw [c1]; decide
      exact f5 hsc
  have hscene3 : s3.currentScene = datasetScene (!a) := by rw [f1, c1]
  have h4 : homeClick env user s3 = { s3 with currentScene := "main_menu" } :=
    homeClick_as_owner env user s3 howner (by rw [hscene3]; exact datasetScene_ne_main (!a))
  rw [h4]
  obtain ⟨d1, d2, d3, d4, d5, dnone, dsome⟩ :=
    clickDataset_from_main a { s3 with currentScene := "main_menu" } rfl
  have hslot4 : slotOf a { s3 with currentScene := "main_menu" }
      = some (some ((p : Nat) : Rat)) := by
    rw [slotOf_update_scene]
    exact hslot3
  have hlist4 : listOf a { s3 with currentScene := "main_menu" } = listOf a s := by
    refine Eq.trans ?_ hlist3
    apply listOf_congr_fields <;> rfl
  have hcurFinal := dsome (some ((p : Nat) : Rat)) hslot4
  rw [hlist4] at hcurFinal
  constructor
  · rw [hcurFinal]
    have hmax : max ((p : Nat) : Rat) 1 = ((p : Nat) : Rat) := by
      apply max_eq_left
      exact_mod_cast hp1
    have hmin : min ((p : Nat) : Rat) ((totalPages (listOf a s).length : Nat) : Rat)
        = ((p : Nat) : Rat) := by
      apply min_eq_left
      exact_mod_cast hp2
    simp [hmax, hmin]
  · exact hslot3

theorem dataset_page_memory_witness :
    (clickDataset true (homeClick sampleEnv "owner"
        ([MenuAction.next].foldl (applyMenuAction sampleEnv "owner")
          (clickDataset (!true) (homeClick sampleEnv "owner" radicalMenuState))))).curPageNum
      = some ((1 : Nat) : Rat)
    ∧ slotOf true ([MenuAction.next].foldl (applyMenuAction sampleEnv "owner")
        (clickDataset (!true) (homeClick sampleEnv "owner" radicalMenuState)))
      = some (some ((1 : Nat) : Rat)) :=
  dataset_page_memory sampleEnv "owner" true radicalMenuState 1 [MenuAction.next]
    (by decide) (by decide) (by decide) (by decide) (by decide)

/-- C7: a submitted search replaces the scene-implied working list — the
full source dataset for the empty query, exactly the source entries whose
pinyin reading contains the query (case-sensitive, unanchored) otherwise —
resets the shared page cursor to 1, and leaves the other dataset's working
list and both remembered page slots unchanged. -/
theorem search_replaces_active_working_list (env : Env) (user : String) (s : HState)
    (q : String)
    (hscene : s.currentScene = "common_hanzi_menu" ∨ s.currentScene = "radical_menu") :
    (controlSearch env user s true q).curPageNum = some 1
    ∧ (controlSearch env user s true q).radicalPageNum = s.radicalPageNum
    ∧ (controlSearch env user s true q).hanziPageNum = s.hanziPageNum
    ∧ (s.currentScene = "common_hanzi_menu" →
        (controlSearch env user s true q).characters
          = (if q.length = 0 then env.dbCharacters
             else env.dbCharacters.filter (fun c => jsIncludes (env.pinyinOf c) q))
        ∧ (controlSearch env user s true q).radicals = s.radicals)
    ∧ (s.currentScene = "radical_menu" →
        (controlSearch env user s true q).radicals
          = (if q.length = 0 then env.dbRadicals
             else env.dbRadicals.filter (fun c => jsIncludes (env.pinyinOf c) q))
        ∧ (controlSearch env user s true q).characters = s.characters) := by
  rcases hscene with h | h
  · have hg : hanziSceneGate s = true := by rw [hanziSceneGate, h]; rfl
    by_cases hq : q.length = 0
    · simp [controlSearch, hg, searchHanzi, resetPageNum, h, hq]
    · simp [controlSearch, hg, searchHanzi, resetPageNum, h, hq]
  · have hg : hanziSceneGate s = true := by rw [hanziSceneGate, h]; rfl
    by_cases hq : q.length = 0
    · simp [controlSearch, hg, searchHanzi, resetPageNum, h, hq]
    · simp [controlSearch, hg, searchHanzi, resetPageNum, h, hq]

theorem search_replaces_active_working_list_witness :
    (controlSearch sampleEnv "anyone" baseState true "ang").curPageNum = some 1
    ∧ (controlSearch sampleEnv "anyone" baseState true "ang").radicalPageNum
        = baseState.radicalPageNum
    ∧ (controlSearch sampleEnv "anyone" baseState true "ang").hanziPageNum
        = baseState.hanziPageNum
    ∧ (baseState.currentScene = "common_hanzi_menu" →
        (controlSearch sampleEnv "anyone" baseState true "ang").characters
          = (if ("ang" : String).length = 0 then sampleEnv.dbCharacters
             else sampleEnv.dbCharacters.filter
                (fun c => jsIncludes (sampleEnv.pinyinOf c) "ang"))
        ∧ (controlSearch sampleEnv "anyone" baseState true "ang").radicals
            = baseState.radicals)
    ∧ (baseState.currentScene = "radical_menu" →
        (controlSearch sampleEnv "anyone" baseState true "ang").radicals
          = (if ("ang" : String).length = 0 then sampleEnv.dbRadicals
             else sampleEnv.dbRadicals.filter
                (fun c => jsIncludes (sampleEnv.pinyinOf c) "ang"))
        ∧ (controlSearch sampleEnv "anyone" baseState true "ang").characters
            = baseState.characters) :=
  search_replaces_active_working_list sampleEnv "anyone" baseState "ang" (Or.inl rfl)

/-! ## Entity lifecycle lemmas and claims C9, C10, C1, C2, C8 -/

theorem mapDelete_idem {κ β : Type} [DecidableEq κ] (m : List (κ × β)) (k : κ) :
    mapDelete (mapDelete m k) k = mapDelete m k := by
  rw [mapDelete_eq_filter, mapDelete_eq_filter]
  exact filter_self_idem _ _

/-- C9: once the box lookup succeeds (as at every call site), `deleteItem`
removes the entity's character tracking and destroys both the child model
actor and the placement box, without touching the transforms or the
actor→box map; running it again on the already-gone entity succeeds and
changes nothing. -/
theorem deleteItem_detaches_and_idempotent (s : HState) (a b : Nat)
    (hb : mapGet s.highlightBoxes a = some b) :
    deleteItem s a = some (deleteItemCore s a b)
    ∧ (deleteItemCore s a b).spawnedHanzi = mapDelete s.spawnedHanzi b
    ∧ (deleteItemCore s a b).destroyedActors.contains a = true
    ∧ (deleteItemCore s a b).destroyedActors.contains b = true
    ∧ (deleteItemCore s a b).highlightBoxes = s.highlightBoxes
    ∧ (deleteItemCore s a b).transforms = s.transforms
    ∧ deleteItem (deleteItemCore s a b) a = some (deleteItemCore s a b) := by
  have hca : (deleteItemCore s a b).destroyedActors.contains a = true :=
    insertNew_contains_of _ b a (insertNew_contains_self s.destroyedActors a)
  have hcb : (deleteItemCore s a b).destroyedActors.contains b = true :=
    insertNew_contains_self _ b
  refine ⟨?_, rfl, hca, hcb, rfl, rfl, ?_⟩
  · unfold deleteItem
    rw [hb]
  · unfold deleteItem
    rw [show (deleteItemCore s a b).highlightBoxes = s.highlightBoxes from rfl, hb]
    show some (deleteItemCore (deleteItemCore s a b) a b) = some (deleteItemCore s a b)
    have hrw : deleteItemCore (deleteItemCore s a b) a b
        = { deleteItemCore s a b with
            subscribed := (deleteItemCore s a b).subscribed.filter (fun n => n ≠ b)
            spawnedHanzi := mapDelete (deleteItemCore s a b).spawnedHanzi b
            destroyedActors :=
              insertNew (insertNew (deleteItemCore s a b).destroyedActors a) b } := rfl
    have h1 : (deleteItemCore s a b).subscribed.filter (fun n => n ≠ b)
        = (deleteItemCore s a b).subscribed := filter_self_idem _ _
    have h2 : mapDelete (deleteItemCore s a b).spawnedHanzi b
        = (deleteItemCore s a b).spawnedHanzi := mapDelete_idem _ _
    have h3 : insertNew (insertNew (deleteItemCore s a b).destroyedActors a) b
        = (deleteItemCore s a b).destroyedActors := by
      rw [insertNew_eq_of_contains _ a hca, insertNew_eq_of_contains _ b hcb]
    rw [hrw, h1, h2, h3]

theorem deleteItem_detaches_and_idempotent_witness :
    deleteItem oneEntityState 1 = some (deleteItemCore oneEntityState 1 0)
    ∧ (deleteItemCore oneEntityState 1 0).spawnedHanzi
        = mapDelete oneEntityState.spawnedHanzi 0
    ∧ (deleteItemCore oneEntityState 1 0).destroyedActors.contains 1 = true
    ∧ (deleteItemCore oneEntityState 1 0).destroyedActors.contains 0 = true
    ∧ (deleteItemCore oneEntityState 1 0).highlightBoxes = oneEntityState.highlightBoxes
    ∧ (deleteItemCore oneEntityState 1 0).transforms = oneEntityState.transforms
    ∧ deleteItem (deleteItemCore oneEntityState 1 0) 1
        = some (deleteItemCore oneEntityState 1 0) :=
  deleteItem_detaches_and_idempotent oneEntityState 1 0 rfl

/-- C10: deleting the selected entity through the control strip leaves the
selection pointer and the actor→box entry in place — the entity is
destroyed, yet an immediately following scale increase still rewrites the
destroyed box's transform rather than being a no-op. -/
theorem delete_keeps_selection_and_targets (user : String) (s : HState) (a b : Nat)
    (tr : Transform) (q : Rat)
    (hgate : hanziSceneGate s = true)
    (hsel : s.highlightedActor = some a)
    (hbox : mapGet s.highlightBoxes a = some b)
    (htr : mapGet s.transforms b = some tr)
    (hsx : tr.scale.x = some q) :
    (controlDelete user s).highlightedActor = some a
    ∧ (controlDelete user s).highlightBoxes = s.highlightBoxes
    ∧ (controlDelete user s).destroyedActors.contains a = true
    ∧ mapGet (numberIncrease (controlDelete user s)).transforms b
        ≠ mapGet (controlDelete user s).transforms b := by
  have hcd : controlDelete user s = deleteItemCore s a b := by
    unfold controlDelete
    rw [hgate]
    simp only [hsel, deleteItem, hbox, if_true]
    rfl
  rw [hcd]
  have hca : (deleteItemCore s a b).destroyedActors.contains a = true :=
    insertNew_contains_of _ b a (insertNew_contains_self s.destroyedActors a)
  refine ⟨hsel, rfl, hca, ?_⟩
  have e1 : hanziSceneGate (deleteItemCore s a b) = true := hgate
  have e2 : (deleteItemCore s a b).highlightedActor = some a := hsel
  have e3 : mapGet (deleteItemCore s a b).highlightBoxes a = some b := hbox
  have e4 : mapGet (deleteItemCore s a b).transforms b = some tr := htr
  have hni : mapGet (numberIncrease (deleteItemCore s a b)).transforms b
      = some { tr with scale :=
          ⟨jsAdd tr.scale.x (some SCALE_STEP), jsAdd tr.scale.y (some SCALE_STEP),
            jsAdd tr.scale.z (some SCALE_STEP)⟩ } := by
    unfold numberIncrease
    rw [e1]
    simp only [e2, e3, e4, if_true]
    exact mapGet_set_self _ _ _
  rw [hni, e4]
  intro he
  have htr2 := Option.some.inj he
  have hx := congrArg (fun z => Transform.scale z) htr2
  have hx2 := congrArg V3.x hx
  simp only at hx2
  rw [hsx] at hx2
  simp only [jsAdd, jsBin] at hx2
  have hq := Option.some.inj hx2
  have hstep : SCALE_STEP = 0 := by linarith
  norm_num [SCALE_STEP] at hstep

theorem delete_keeps_selection_and_targets_witness :
    (controlDelete "owner" oneEntityState).highlightedActor = some 1
    ∧ (controlDelete "owner" oneEntityState).highlightBoxes = oneEntityState.highlightBoxes
    ∧ (controlDelete "owner" oneEntityState).destroyedActors.contains 1 = true
    ∧ mapGet (numberIncrease (controlDelete "owner" oneEntityState)).transforms 0
        ≠ mapGet (controlDelete "owner" oneEntityState).transforms 0 :=
  delete_keeps_selection_and_targets "owner" oneEntityState 1 0 sampleTransform
    HANZI_MODEL_SCALE rfl rfl rfl rfl rfl

/-- C1 (amended): only the spawned entity's selection click handler and the
home button's navigation reset consult the acting user's identity; for a
non-owner both are silently ignored — the state is returned unchanged and
no error is surfaced. The control-strip actions are not identity-gated
(see the counterexample). -/
theorem selection_home_owner_gated (env : Env) (user : String) (s : HState)
    (actor box : Nat) (h : checkUserName user env.owner = false) :
    boxClick env user s actor box = s ∧ homeClick env user s = s := by
  constructor
  · simp [boxClick, h]
  · simp [homeClick, h]

theorem selection_home_owner_gated_witness :
    boxClick sampleEnv "mallory" baseState 1 0 = baseState
    ∧ homeClick sampleEnv "mallory" baseState = baseState :=
  selection_home_owner_gated sampleEnv "mallory" baseState 1 0 (by decide)

/-- C1 counterexample: a user who is not the configured owner presses the
control strip's Spawn button and the spawned-entity state changes — the
action is executed, not silently ignored. -/
theorem controlSpawn_nonowner_changes_state :
    checkUserName "mallory" sampleEnv.owner = false
    ∧ (controlSpawn sampleEnv "mallory" baseState).spawnedHanzi ≠ baseState.spawnedHanzi := by
  constructor
  · decide
  · decide

/-- C2 (amended): `saveLevel` resolves the filename to its base name inside
the levels directory (and a base name can hold no separator), but
`loadLevel` interpolates the raw filename into the path unsanitized. -/
theorem save_sanitizes_load_raw (f : String) :
    saveLevelPath f = "./public/levels/" ++ posixBasename f ++ ".json"
    ∧ noSlash (posixBasename f) = true
    ∧ loadLevelPath f = "./public/levels/" ++ f ++ ".json" := by
  refine ⟨rfl, ?_, rfl⟩
  unfold noSlash posixBasename
  rw [List.all_eq_true]
  intro c hc
  rw [show (String.mk ((f.data.reverse.dropWhile (fun c => c = '/')).takeWhile
      (fun c => c ≠ '/')).reverse).data
      = ((f.data.reverse.dropWhile (fun c => c = '/')).takeWhile (fun c => c ≠ '/')).reverse
    from rfl] at hc
  rw [List.mem_reverse] at hc
  have h2 := List.mem_takeWhile_imp hc
  simpa using h2

/-- C2 counterexample: a filename with a directory component resolves, for
`loadLevel`, to a path outside the levels directory — not to the sanitized
base-name path used by `saveLevel`. -/
theorem loadLevel_unsanitized_cex :
    loadLevelPath "../secret" = "./public/levels/../secret.json"
    ∧ saveLevelPath "../secret" = "./public/levels/secret.json"
    ∧ loadLevelPath "../secret" ≠ "./public/levels/" ++ posixBasename "../secret" ++ ".json" := by
  refine ⟨by decide, by decide, by decide⟩

/-- C8: non-numeric input to the goto-page and set-scale prompts is not
rejected — JS `parseInt` yields NaN and the `!== NaN` guard is always true,
so the page cursor and the selected entity's scale are overwritten with
NaN instead of being left unchanged. -/
theorem nonNumeric_input_goto_scale_divergence :
    (controlGoto "anyone" oneEntityState true "abc").curPageNum = jsNaN
    ∧ oneEntityState.curPageNum = some 1
    ∧ mapGet (numberEdit "anyone" oneEntityState true "abc").transforms 0
        = some { sampleTransform with scale := ⟨jsNaN, jsNaN, jsNaN⟩ }
    ∧ mapGet oneEntityState.transforms 0 = some sampleTransform
    ∧ ({ sampleTransform with scale := ⟨jsNaN, jsNaN, jsNaN⟩ } : Transform)
        ≠ sampleTransform := by
  refine ⟨rfl, rfl, rfl, rfl, by decide⟩


/-! ## Level round trip (claim C5) -/

theorem saveLevel_confirmed (s : HState) (X : String) :
    saveLevel s X true
      = { s with storage := mapSet s.storage (saveLevelPath X) (levelOf s) } := by
  rw [saveLevel]
  by_cases h : mapHas s.storage (saveLevelPath X) = true
  · simp [h]
  · simp [h]

theorem clearFold_fields (l : List (Nat × Nat)) : ∀ (st : HState),
    (∀ x ∈ l, mapGet st.highlightBoxes x.1 = some x.2) →
    ((l.foldl (fun t p => (deleteItem t p.1).getD t) st).spawnedHanzi
        = st.spawnedHanzi.filter (fun p => l.all (fun x => !(p.1 == x.2))))
    ∧ (l.foldl (fun t p => (deleteItem t p.1).getD t) st).highlightBoxes = st.highlightBoxes
    ∧ (l.foldl (fun t p => (deleteItem t p.1).getD t) st).transforms = st.transforms
    ∧ (l.foldl (fun t p => (deleteItem t p.1).getD t) st).storage = st.storage
    ∧ (l.foldl (fun t p => (deleteItem t p.1).getD t) st).nextId = st.nextId := by
  induction l with
  | nil =>
    intro st _
    refine ⟨?_, rfl, rfl, rfl, rfl⟩
    simp
  | cons x l ih =>
    intro st hvalid
    have hx : mapGet st.highlightBoxes x.1 = some x.2 := hvalid x (by simp)
    have hstep : (deleteItem st x.1).getD st = deleteItemCore st x.1 x.2 := by
      simp only [deleteItem, hx, Option.getD_some]
    simp only [List.foldl_cons, hstep]
    have hvalid2 : ∀ y ∈ l, mapGet (deleteItemCore st x.1 x.2).highlightBoxes y.1 = some y.2 := by
      intro y hy
      rw [show (deleteItemCore st x.1 x.2).highlightBoxes = st.highlightBoxes from rfl]
      exact hvalid y (by simp [hy])
    obtain ⟨g1, g2, g3, g4, g5⟩ := ih (deleteItemCore st x.1 x.2) hvalid2
    refine ⟨?_, g2, g3, g4, g5⟩
    rw [g1]
    rw [show (deleteItemCore st x.1 x.2).spawnedHanzi = mapDelete st.spawnedHanzi x.2 from rfl]
    rw [mapDelete_eq_filter, List.filter_filter]
    apply List.filter_congr
    intro p hp
    by_cases hpe : p.1 = x.2 <;> simp [hpe, List.all_cons]

theorem filter_not_covered_nil (sh : List (Nat × String)) (hb : List (Nat × Nat))
    (hcov : ∀ p ∈ sh, ∃ x ∈ hb, x.2 = p.1) :
    sh.filter (fun p => hb.all (fun x => !(p.1 == x.2))) = [] := by
  rw [List.filter_eq_nil_iff]
  intro p hp
  obtain ⟨x, hx, he⟩ := hcov p hp
  intro hall
  rw [List.all_eq_true] at hall
  have := hall x hx
  simp [he] at this

theorem pairsOf_spawn_fold (env : Env) (editor : Bool) (level : List LevelRec) :
    ∀ (st : HState), (∀ p ∈ st.spawnedHanzi, p.1 < st.nextId) →
    pairsOf (level.foldl
        (fun t d => spawnItem env t (some d.char) (some d.transform) editor) st)
      = pairsOf st ++ level.map (fun d => (d.char, d.transform)) := by
  induction level with
  | nil =>
    intro st _
    simp
  | cons d level ih =>
    intro st hfresh
    simp only [List.foldl_cons, List.map_cons]
    have hA : (spawnItem env st (some d.char) (some d.transform) editor).nextId
        = st.nextId + 2 := by
      by_cases hp : d.char ∈ st.prefabs <;> simp [spawnItem, hp]
    have hT : (spawnItem env st (some d.char) (some d.transform) editor).transforms
        = mapSet st.transforms st.nextId d.transform := by
      by_cases hp : d.char ∈ st.prefabs <;> simp [spawnItem, hp]
    have hS : (spawnItem env st (some d.char) (some d.transform) editor).spawnedHanzi
        = mapSet st.spawnedHanzi st.nextId d.char := by
      by_cases hp : d.char ∈ st.prefabs <;> simp [spawnItem, hp]
    have hnotin : mapGet st.spawnedHanzi st.nextId = none :=
      mapGet_eq_none_of_keys _ _ (fun p hp => Nat.ne_of_lt (hfresh p hp))
    have hS2 : (spawnItem env st (some d.char) (some d.transform) editor).spawnedHanzi
        = st.spawnedHanzi ++ [(st.nextId, d.char)] := by
      rw [hS, mapSet_eq_append _ _ _ hnotin]
    have hfresh2 : ∀ p ∈ (spawnItem env st (some d.char) (some d.transform) editor).spawnedHanzi,
        p.1 < (spawnItem env st (some d.char) (some d.transform) editor).nextId := by
      rw [hS2, hA]
      intro p hp
      rcases List.mem_append.mp hp with h | h
      · exact Nat.lt_trans (hfresh p h) (by omega)
      · have : p = (st.nextId, d.char) := by simpa using h
        rw [this]
        omega
    rw [ih _ hfresh2]
    have hpairs : pairsOf (spawnItem env st (some d.char) (some d.transform) editor)
        = pairsOf st ++ [(d.char, d.transform)] := by
      unfold pairsOf
      rw [hS2, hT, List.map_append]
      congr 1
      · apply List.map_congr_left
        intro p hp
        have hne : p.1 ≠ st.nextId := Nat.ne_of_lt (hfresh p hp)
        rw [mapGet_set_ne _ _ _ _ hne]
      · simp [mapGet_set_self]
    rw [hpairs, List.append_assoc]
    rfl



/-- C5 (amended): for a level name without directory components (its base
name is itself) and with the overwrite prompt, if shown, confirmed, saving
a level, clearing it and loading it back reproduces the same collection of
(character, transform) pairs, compared order-independently (the proof in
fact yields the same sequence). The hypotheses `hnd` and `hcov` are the
actor-map invariants every reachable state satisfies: actor keys are unique
and every live box was recorded at spawn time. -/
theorem save_clear_load_round_trip (env : Env) (s : HState) (X : String)
    (hX : posixBasename X = X)
    (hnd : (s.highlightBoxes.map Prod.fst).Nodup)
    (hcov : ∀ p ∈ s.spawnedHanzi, ∃ x ∈ s.highlightBoxes, x.2 = p.1) :
    List.Perm
      (pairsOf (loadLevel env (clearLevel (saveLevel s X true)) X true))
      (pairsOf s) := by
  rw [saveLevel_confirmed s X]
  set s1 : HState := { s with storage := mapSet s.storage (saveLevelPath X) (levelOf s) }
    with hs1
  have hvalid : ∀ x ∈ s1.highlightBoxes, mapGet s1.highlightBoxes x.1 = some x.2 := by
    intro x hx
    exact mapGet_of_nodup_mem s1.highlightBoxes hnd x hx
  obtain ⟨g1, g2, g3, g4, g5⟩ := clearFold_fields s1.highlightBoxes s1 hvalid
  have hclear : clearLevel s1 = s1.highlightBoxes.foldl (fun t p => (deleteItem t p.1).getD t) s1 := rfl
  rw [hclear]
  set s2 := s1.highlightBoxes.foldl (fun t p => (deleteItem t p.1).getD t) s1 with hs2
  have hsh2 : s2.spawnedHanzi = [] := by
    rw [g1]
    exact filter_not_covered_nil s.spawnedHanzi s.highlightBoxes hcov
  have hpath : loadLevelPath X = saveLevelPath X := by
    unfold loadLevelPath saveLevelPath
    rw [hX]
  have hstor : mapGet s2.storage (loadLevelPath X) = some (levelOf s) := by
    rw [g4, hpath]
    exact mapGet_set_self _ _ _
  have hload : loadLevel env s2 X true
      = (levelOf s).foldl
          (fun st d => spawnItem env st (some d.char) (some d.transform) true) s2 := by
    unfold loadLevel
    rw [hstor]
  rw [hload]
  rw [pairsOf_spawn_fold env true (levelOf s) s2 (by rw [hsh2]; simp)]
  have h2 : pairsOf s2 = [] := by
    unfold pairsOf
    rw [hsh2]
    rfl
  have h3 : (levelOf s).map (fun d => (d.char, d.transform)) = pairsOf s := by
    unfold levelOf pairsOf
    rw [List.map_map]
    rfl
  rw [h2, h3, List.nil_append]

theorem save_clear_load_round_trip_witness :
    List.Perm
      (pairsOf (loadLevel sampleEnv
        (clearLevel (saveLevel twoEntityState "mylevel" true)) "mylevel" true))
      (pairsOf twoEntityState) :=
  save_clear_load_round_trip sampleEnv twoEntityState "mylevel"
    (by decide) (by decide) (by decide)

/-- C5 counterexample: with the level name `"a/b"`, `saveLevel` writes the
base-name file `b.json` but `loadLevel` looks for `a/b.json`, finds
nothing, and the cleared entities are not reproduced. -/
theorem roundtrip_dirname_cex :
    ¬ List.Perm
      (pairsOf (loadLevel sampleEnv
        (clearLevel (saveLevel oneEntityState "a/b" true)) "a/b" true))
      (pairsOf oneEntityState) := by
  decide

end AltHanzi
